import Mathlib

/-!
Verification of the message-normalization, token-estimation and
stream-relay logic of the Vercel AI Gateway VS Code extension
(`src/provider.ts`, latest revision: `convertMessages`,
`convertSingleMessage`, `extractToolResultTexts`, `isValidMessage`,
`fixSystemMessages`, `provideTokenCount`,
`provideLanguageModelChatResponse` and its chunk handlers).

The host types (`LanguageModelChatMessage`, content parts) and the
upstream wire types (`ModelMessage`) are embedded as inductive types;
the conversion functions are translated statement by statement from the
TypeScript source.
-/

namespace VercelAI

/-- Host message roles (`LanguageModelChatMessageRole`): the conversion
only distinguishes `User` from everything else. -/
inductive HostRole where
  | user
  | assistant
deriving DecidableEq, Repr

/-- Upstream message roles of the `ModelMessage` wire format. -/
inductive URole where
  | user
  | assistant
  | system
  | tool
deriving DecidableEq, Repr

instance : BEq URole := ⟨fun a b => decide (a = b)⟩

/-- A nested part inside a `LanguageModelToolResultPart.content` array.
`extractToolResultTexts` keeps exactly the parts that are objects with a
`value` field; `textPart v` models such a part, `otherPart` any other. -/
inductive ToolResultContent where
  | textPart (value : String)
  | otherPart
deriving DecidableEq, Repr

/-- A content part of a host chat message.  `text` models any object
with a string `value` field (a `LanguageModelTextPart`), `toolCall` a
`LanguageModelToolCallPart` (its structured input is kept as an opaque
string), `toolResult` a `LanguageModelToolResultPart`, and `other` any
part matching none of the three probes (skipped by the converter). -/
inductive ContentPart where
  | text (value : String)
  | toolCall (callId : String) (name : String) (input : String)
  | toolResult (callId : String) (content : List ToolResultContent)
  | other
deriving DecidableEq, Repr

/-- A host chat message (`LanguageModelChatMessage`): a role and an
ordered list of content parts. -/
structure ChatMessage where
  role : HostRole
  content : List ContentPart
deriving DecidableEq, Repr

/-- A typed content block of an upstream `ModelMessage`. -/
inductive Block where
  | toolCall (toolName : String) (toolCallId : String) (input : String)
  | toolResult (toolCallId : String) (toolName : String) (output : String)
deriving DecidableEq, Repr

/-- Upstream message content: either a plain string or a block array. -/
inductive UContent where
  | str (s : String)
  | blocks (bs : List Block)
deriving DecidableEq, Repr

/-- An upstream `ModelMessage`. -/
structure UpstreamMessage where
  role : URole
  content : UContent
deriving DecidableEq, Repr

/-- `const role = msg.role === LanguageModelChatMessageRole.User ?
'user' : 'assistant';` in `convertSingleMessage`. -/
def roleOf : HostRole → URole
  | .user => .user
  | .assistant => .assistant

/-- The per-message `tools` record (`Record<string, string>`):
`tools[callId] = name` overwrites, so lookup takes the most recent
binding.  Modelled as an association list with the newest binding in
front. -/
def ToolRecord := List (String × String)

/-- `tools[part.callId] || "unknown"`: a JavaScript falsy lookup — a
missing key and a recorded empty-string name both fall back to the
literal unknown name. -/
def lookupToolName (tools : ToolRecord) (callId : String) : String :=
  match tools.lookup callId with
  | some n => if n = "" then "unknown" else n
  | none => "unknown"

/-- `extractToolResultTexts`: keep the `value` of every nested part that
carries one (`'value' in resultPart`). -/
def extractToolResultTexts (content : List ToolResultContent) : List String :=
  content.filterMap fun p =>
    match p with
    | .textPart v => some v
    | .otherPart => none

/-- The part loop of `convertSingleMessage`: iterate the content parts
in order, threading the per-message `tools` record.  A text part emits a
string message with the host role; a tool-call part emits an assistant
message with one tool-call block and records `callId -> name`; a
tool-result part emits a tool message with one tool-result block when at
least one nested text value was extracted, joining the values with a
single space; any other part is skipped. -/
def convertParts (role : URole) : List ContentPart → ToolRecord → List UpstreamMessage
  | [], _ => []
  | .text v :: rest, tools =>
      { role := role, content := .str v } :: convertParts role rest tools
  | .toolCall callId name input :: rest, tools =>
      { role := .assistant, content := .blocks [.toolCall name callId input] } ::
        convertParts role rest ((callId, name) :: tools)
  | .toolResult callId content :: rest, tools =>
      let resultTexts := extractToolResultTexts content
      if resultTexts.length > 0 then
        { role := .tool,
          content := .blocks [.toolResult callId (lookupToolName tools callId)
            (String.intercalate " " resultTexts)] } :: convertParts role rest tools
      else
        convertParts role rest tools
  | .other :: rest, tools => convertParts role rest tools

/-- `convertSingleMessage`: run the part loop with a fresh `tools`
record; if it produced nothing, emit one placeholder message with the
host role and empty string content. -/
def convertSingleMessage (msg : ChatMessage) : List UpstreamMessage :=
  let role := roleOf msg.role
  let results := convertParts role msg.content []
  if results.length = 0 then [{ role := role, content := .str "" }] else results

/-- JavaScript `String.prototype.trim`: strip whitespace from both ends
of the string (embedded over the character list). -/
def jsTrim (s : String) : String :=
  String.mk (((s.data.dropWhile Char.isWhitespace).reverse.dropWhile Char.isWhitespace).reverse)

/-- `isValidMessage`: string content must be non-whitespace
(`msg.content.trim().length > 0`), block content must be a non-empty
array. -/
def isValidMessage (msg : UpstreamMessage) : Bool :=
  match msg.content with
  | .str s => (jsTrim s).length > 0
  | .blocks bs => bs.length > 0

/-- The rewrite loop of `fixSystemMessages`: for the first `k` list
positions, an assistant-role message becomes system-role; everything
else is untouched. -/
def rewriteBefore : Nat → List UpstreamMessage → List UpstreamMessage
  | _, [] => []
  | 0, l => l
  | k + 1, m :: rest =>
      (if m.role = URole.assistant then { m with role := URole.system } else m) ::
        rewriteBefore k rest

/-- `fixSystemMessages`: `findIndex` yields -1 when no user-role message
exists, in which case the loop body never runs; otherwise assistants
strictly before the first user-role message become system. -/
def fixSystemMessages (result : List UpstreamMessage) : List UpstreamMessage :=
  match result.findIdx? (fun m => m.role == URole.user) with
  | none => result
  | some firstUserIndex => rewriteBefore firstUserIndex result

/-- `convertMessages`: flat-map the per-message conversion, filter out
invalid messages, then repair leading assistant roles. -/
def convertMessages (messages : List ChatMessage) : List UpstreamMessage :=
  fixSystemMessages ((messages.flatMap convertSingleMessage).filter isValidMessage)

/-- `Math.ceil(len / 4)` on a non-negative integer length (the float
division by four and its ceiling are exact for every realizable string
length). -/
def ceilQuarter (len : Nat) : Nat := (len + 3) / 4

/-- The argument of `provideTokenCount`: either raw text or a structured
host message. -/
inductive TokenInput where
  | str (s : String)
  | msg (m : ChatMessage)

/-- Whether a content part is a `LanguageModelTextPart` (the
`instanceof` probe of the token-count loop). -/
def isTextPartInstance : ContentPart → Bool
  | .text _ => true
  | _ => false

/-- `provideTokenCount`: raw text estimates to `Math.ceil(length / 4)`;
a structured message folds that estimate over its text parts, skipping
every other part kind. -/
def provideTokenCount : TokenInput → Nat
  | .str s => ceilQuarter s.length
  | .msg m =>
      m.content.foldl
        (fun totalTokens part =>
          match part with
          | .text v => totalTokens + ceilQuarter v.length
          | _ => totalTokens) 0

/-! ## Stream relay (`provideLanguageModelChatResponse`) -/

/-- A response part reported through the host progress channel. -/
inductive ResponsePart where
  | text (s : String)
  | thinking (s : String)
deriving DecidableEq, Repr

/-- A chunk of `response.toUIMessageStream()`.  The delta of a
reasoning chunk and the error text of an error chunk are optional
fields read through truthiness checks, so they are embedded as
`Option String`. -/
inductive StreamChunk where
  | textDelta (delta : String)
  | reasoningDelta (delta : Option String)
  | error (errorText : Option String)
  | other
deriving DecidableEq, Repr

/-- JavaScript truthiness of an optional string field: present and
non-empty. -/
def truthyString : Option String → Bool
  | some s => !(s == "")
  | none => false

/-- `handleReasoningDelta`: report one thinking part exactly when the
host exposes the `LanguageModelThinkingPart` constructor and
`chunk.delta` is truthy (`if (ThinkingCtor && chunk.delta)`); otherwise
report nothing. -/
def handleReasoningDelta (thinkingCtorAvailable : Bool) (delta : Option String) :
    List ResponsePart :=
  if thinkingCtorAvailable && truthyString delta then
    [.thinking (delta.getD "")]
  else
    []

/-- `handleErrorChunk`: `chunk.errorText || 'Unknown error occurred'`
interpolated into the error text template. -/
def handleErrorChunk (errorText : Option String) : List ResponsePart :=
  let errorMessage := if truthyString errorText then errorText.getD "" else "Unknown error occurred"
  [.text ("\n\n**Error:** " ++ errorMessage ++ "\n\n")]

/-- The `switch (chunk.type)` body of the relay loop: the parts reported
for one upstream chunk. -/
def processChunk (thinkingCtorAvailable : Bool) : StreamChunk → List ResponsePart
  | .textDelta delta => [.text delta]
  | .reasoningDelta delta => handleReasoningDelta thinkingCtorAvailable delta
  | .error errorText => handleErrorChunk errorText
  | .other => [.text " "]

/-- A JavaScript exception value as classified by `extractErrorMessage`:
an `Error` instance (an abort error raised by the SDK when the relay's
own signal fires is such an instance), a plain string, a non-Error
object with a `message` field, or anything else. -/
inductive JsError where
  | errorInstance (message : String)
  | str (s : String)
  | objWithMessage (message : String)
  | otherValue
deriving DecidableEq, Repr

/-- `extractErrorMessage`. -/
def extractErrorMessage : JsError → String
  | .errorInstance m => m
  | .str s => s
  | .objWithMessage m => m
  | .otherValue => "An unexpected error occurred"

/-- `Modelled from the spec:` the `ERROR_MESSAGES.API_KEY_NOT_FOUND`
constant is imported from a `constants` module whose revision in the
repository lacks it; the spec calls for one explanatory text part when
no credential resolves, and the earlier provider revision throws
`new Error("Vercel AI Gateway API key not found")` at the same point. -/
def apiKeyNotFoundMessage : String := "Vercel AI Gateway API key not found"

/-- One chat turn's externally determined circumstances: whether a
credential resolves, whether host cancellation is already requested
before the upstream call would be issued, and the upstream stream's
behavior (the chunks it yields, then an optional exception raised while
issuing or consuming). -/
structure TurnInput where
  apiKey : Option String
  cancelledBeforeIssue : Bool
  upstreamChunks : List StreamChunk
  upstreamError : Option JsError

/-- What one run of `provideLanguageModelChatResponse` did: whether
`streamText` was invoked, every part reported through `progress.report`
in order, and the exception (if any) escaping to the host. -/
structure TurnResult where
  issuedCall : Bool
  reported : List ResponsePart
  thrown : Option JsError
deriving DecidableEq, Repr

/-- The `try` body: a missing credential throws before `streamText` is
reached; otherwise the call is issued unconditionally — the source
checks no cancellation state before `streamText`, cancellation reaches
the upstream only through the abort signal — and the loop reports the
parts of every yielded chunk in arrival order until the stream ends or
raises. -/
def tryBody (thinkingCtorAvailable : Bool) (inp : TurnInput) :
    List ResponsePart × Bool × Option JsError :=
  match inp.apiKey with
  | none => ([], false, some (.errorInstance apiKeyNotFoundMessage))
  | some _ =>
      (inp.upstreamChunks.flatMap (processChunk thinkingCtorAvailable), true,
        inp.upstreamError)

/-- `provideLanguageModelChatResponse`: run the `try` body; the `catch`
clause turns any exception into one formatted error text part appended
after the parts already reported, so nothing escapes to the host. -/
def provideLanguageModelChatResponse (thinkingCtorAvailable : Bool) (inp : TurnInput) :
    TurnResult :=
  let (parts, issued, exn) := tryBody thinkingCtorAvailable inp
  match exn with
  | none => { issuedCall := issued, reported := parts, thrown := none }
  | some e =>
      { issuedCall := issued,
        reported := parts ++ [.text ("\n\n**Error:** " ++ extractErrorMessage e ++ "\n\n")],
        thrown := none }

/-! ## Shared lemmas -/

theorem truthyString_eq_true_iff (delta : Option String) :
    truthyString delta = true ↔ ∃ d, delta = some d ∧ d ≠ "" := by
  cases delta with
  | none => simp [truthyString]
  | some d => simp [truthyString]

/-! ## Claim theorems: stream relay -/

/-- C2 counterexample: with host cancellation already requested before
issue (and a credential available), the relay still issues the upstream
call — there is no pre-issue cancellation check in the source, so the
claimed direct transition to Cancelled without issuing does not
happen. -/
theorem cancelled_before_issue_still_issues_call :
    (TurnInput.mk (some "k") true [] none).cancelledBeforeIssue = true ∧
      (provideLanguageModelChatResponse false (TurnInput.mk (some "k") true [] none)).issuedCall
        = true :=
  ⟨rfl, rfl⟩

/-- C2 (amended): when host cancellation is requested before issue, the
relay nevertheless issues the upstream call (cancellation reaches the
upstream only through the abort signal); zero response parts are then
reported exactly when the issued call yields no part-producing chunks
and raises no exception. -/
theorem cancelled_before_issue_behavior (ts : Bool) (key : String)
    (chunks : List StreamChunk) (err : Option JsError) :
    (provideLanguageModelChatResponse ts (TurnInput.mk (some key) true chunks err)).issuedCall
        = true ∧
      ((provideLanguageModelChatResponse ts (TurnInput.mk (some key) true chunks err)).reported
          = []
        ↔ chunks.flatMap (processChunk ts) = [] ∧ err = none) := by
  cases err with
  | none => simp [provideLanguageModelChatResponse, tryBody]
  | some e => simp [provideLanguageModelChatResponse, tryBody]

/-- C3 counterexample: when the exception observed by the relay is the
abort raised by its own cancellation, the catch clause still reports a
formatted error text part — the source does not recognize abort
exceptions. -/
theorem abort_exception_reported_as_error_part :
    (provideLanguageModelChatResponse false
        (TurnInput.mk (some "k") true []
          (some (.errorInstance "This operation was aborted")))).reported
      = [.text "\n\n**Error:** This operation was aborted\n\n"] :=
  rfl

/-- C3 (amended): every exception observed while issuing or consuming
the stream — the abort reflecting the relay's own cancellation
included — is reported as exactly one formatted error text part,
appended after the parts already reported. -/
theorem any_exception_reported_as_error_part (ts : Bool) (key : String) (cancelled : Bool)
    (chunks : List StreamChunk) (e : JsError) :
    (provideLanguageModelChatResponse ts (TurnInput.mk (some key) cancelled chunks (some e))).reported
      = chunks.flatMap (processChunk ts)
        ++ [.text ("\n\n**Error:** " ++ extractErrorMessage e ++ "\n\n")] :=
  rfl

/-- C7: when no credential resolves, the turn reports exactly one
explanatory text part, issues no upstream call, and lets no exception
escape to the host. -/
theorem missing_credential_single_error_part (ts : Bool) (inp : TurnInput)
    (h : inp.apiKey = none) :
    (provideLanguageModelChatResponse ts inp).reported
        = [.text ("\n\n**Error:** " ++ apiKeyNotFoundMessage ++ "\n\n")] ∧
      (provideLanguageModelChatResponse ts inp).thrown = none ∧
      (provideLanguageModelChatResponse ts inp).issuedCall = false := by
  simp [provideLanguageModelChatResponse, tryBody, h, extractErrorMessage]

/-- C7 witness: the credential-absent turn at a concrete input. -/
theorem missing_credential_single_error_part_witness :
    (provideLanguageModelChatResponse false (TurnInput.mk none false [] none)).reported
        = [.text ("\n\n**Error:** " ++ apiKeyNotFoundMessage ++ "\n\n")] ∧
      (provideLanguageModelChatResponse false (TurnInput.mk none false [] none)).thrown = none ∧
      (provideLanguageModelChatResponse false (TurnInput.mk none false [] none)).issuedCall
        = false :=
  missing_credential_single_error_part false (TurnInput.mk none false [] none) rfl

/-- C10: a reasoning-delta chunk whose delta is absent or the empty
string reports nothing, whatever the thinking capability; a part is
reported exactly when the capability is present and the delta is a
non-empty string, and then it is one thinking part carrying the
delta. -/
theorem reasoning_delta_empty_never_reported (cap : Bool) (delta : Option String)
    (d : String) (hd : d ≠ "") :
    processChunk cap (.reasoningDelta delta) = handleReasoningDelta cap delta ∧
      handleReasoningDelta cap none = [] ∧
      handleReasoningDelta cap (some "") = [] ∧
      (handleReasoningDelta cap delta ≠ [] ↔ cap = true ∧ ∃ e, delta = some e ∧ e ≠ "") ∧
      handleReasoningDelta true (some d) = [.thinking d] := by
  refine ⟨rfl, by simp [handleReasoningDelta, truthyString], by
    simp [handleReasoningDelta, truthyString], ?_, ?_⟩
  · unfold handleReasoningDelta
    rcases cap with _ | _
    · simp
    · rcases delta with _ | s
      · simp [truthyString]
      · simp [truthyString]
  · simp [handleReasoningDelta, truthyString, hd]

/-- C10 witness: the gating at a concrete capability and delta. -/
theorem reasoning_delta_empty_never_reported_witness :
    processChunk true (.reasoningDelta (some "x")) = handleReasoningDelta true (some "x") ∧
      handleReasoningDelta true none = [] ∧
      handleReasoningDelta true (some "") = [] ∧
      (handleReasoningDelta true (some "x") ≠ []
        ↔ true = true ∧ ∃ e, (some "x" : Option String) = some e ∧ e ≠ "") ∧
      handleReasoningDelta true (some "x") = [.thinking "x"] :=
  reasoning_delta_empty_never_reported true (some "x") "x" (by decide)

theorem ceilQuarter_eq_ceilDiv (n : Nat) : ceilQuarter n = n ⌈/⌉ 4 := by
  rw [Nat.ceilDiv_eq_add_pred_div]
  unfold ceilQuarter
  congr 1

theorem tokenCount_foldl_eq_sum (parts : List ContentPart) (acc : Nat) :
    parts.foldl
        (fun totalTokens part =>
          match part with
          | .text v => totalTokens + ceilQuarter v.length
          | _ => totalTokens) acc
      = acc
        + (parts.map fun p =>
            match p with
            | .text v => v.length ⌈/⌉ 4
            | _ => 0).sum := by
  induction parts generalizing acc with
  | nil => simp
  | cons p rest ih =>
    cases p with
    | text v =>
      rw [List.foldl_cons, ih]
      simp [ceilQuarter_eq_ceilDiv, Nat.add_assoc]
    | toolCall callId name input => rw [List.foldl_cons, ih]; simp
    | toolResult callId content => rw [List.foldl_cons, ih]; simp
    | other => rw [List.foldl_cons, ih]; simp

/-- C8: the token estimate of raw text is its character length divided
by four rounded up (0 for the empty string, 1 for a four-character
string), and the estimate of a structured host message is the sum of
that per-text-part estimate with tool-call and tool-result parts
contributing zero. -/
theorem provideTokenCount_ceil_and_text_parts_only (s : String) (m : ChatMessage) :
    provideTokenCount (.str s) = s.length ⌈/⌉ 4 ∧
      provideTokenCount (.msg m)
        = (m.content.map fun p =>
            match p with
            | .text v => v.length ⌈/⌉ 4
            | _ => 0).sum ∧
      provideTokenCount (.str "") = 0 ∧
      provideTokenCount (.str "abcd") = 1 ∧
      provideTokenCount
          (.msg (ChatMessage.mk .user [.text "0123456789", .toolCall "id" "t" "in"]))
        = provideTokenCount (.msg (ChatMessage.mk .user [.text "0123456789"])) := by
  refine ⟨ceilQuarter_eq_ceilDiv s.length, ?_, by decide, by decide, by decide⟩
  have h2 := tokenCount_foldl_eq_sum m.content 0
  simpa [provideTokenCount] using h2

/-! ## Message Normalizer lemmas -/

theorem urole_beq (a b : URole) : (a == b) = decide (a = b) := rfl

theorem rewrite_role_user (m : UpstreamMessage) :
    ((if m.role = URole.assistant then { m with role := URole.system } else m).role
        == URole.user)
      = (m.role == URole.user) := by
  obtain ⟨r, c⟩ := m
  cases r <;> rfl

theorem findIdx?_rewriteBefore (k : Nat) (l : List UpstreamMessage) (i : Nat) :
    (rewriteBefore k l).findIdx? (fun m => m.role == URole.user) i
      = l.findIdx? (fun m => m.role == URole.user) i := by
  induction l generalizing k i with
  | nil => cases k <;> rfl
  | cons m rest ih =>
    cases k with
    | zero => rfl
    | succ k =>
      simp only [rewriteBefore, List.findIdx?_cons, rewrite_role_user, ih]

theorem rewriteBefore_map_content (k : Nat) (l : List UpstreamMessage) :
    (rewriteBefore k l).map UpstreamMessage.content = l.map UpstreamMessage.content := by
  induction l generalizing k with
  | nil => cases k <;> rfl
  | cons m rest ih =>
    cases k with
    | zero => rfl
    | succ k =>
      simp only [rewriteBefore, List.map_cons, ih]
      congr 1
      split <;> rfl

theorem role_mem_take_rewriteBefore (k : Nat) (l : List UpstreamMessage)
    (m : UpstreamMessage) (hm : m ∈ (rewriteBefore k l).take k) :
    m.role ≠ URole.assistant := by
  induction l generalizing k with
  | nil =>
    rw [show rewriteBefore k [] = [] by cases k <;> rfl] at hm
    simp at hm
  | cons m0 rest ih =>
    cases k with
    | zero => simp at hm
    | succ k =>
      rw [show rewriteBefore (k + 1) (m0 :: rest)
          = (if m0.role = URole.assistant then { m0 with role := URole.system } else m0)
            :: rewriteBefore k rest from rfl, List.take_succ_cons] at hm
      rcases List.mem_cons.mp hm with h | h
      · subst h
        by_cases h0 : m0.role = URole.assistant
        · simp [h0]
        · simp [h0]
      · exact ih k h

theorem fixSystemMessages_of_none (l : List UpstreamMessage)
    (h : l.findIdx? (fun m => m.role == URole.user) = none) :
    fixSystemMessages l = l := by
  unfold fixSystemMessages
  rw [h]

theorem fixSystemMessages_of_some (l : List UpstreamMessage) (i : Nat)
    (h : l.findIdx? (fun m => m.role == URole.user) = some i) :
    fixSystemMessages l = rewriteBefore i l := by
  unfold fixSystemMessages
  rw [h]

theorem fixSystemMessages_map_content (l : List UpstreamMessage) :
    (fixSystemMessages l).map UpstreamMessage.content = l.map UpstreamMessage.content := by
  cases h : l.findIdx? (fun m => m.role == URole.user) with
  | none => rw [fixSystemMessages_of_none l h]
  | some i => rw [fixSystemMessages_of_some l i h, rewriteBefore_map_content]

/-! ## Claim theorems: Message Normalizer -/

/-- C5: in the normalized output, every message positioned before the
first user-role message has a non-assistant role — the role-repair pass
rewrote each leading assistant to system. -/
theorem no_assistant_before_first_user (messages : List ChatMessage) (i : Nat)
    (h : (convertMessages messages).findIdx? (fun m => m.role == URole.user) = some i) :
    ∀ m ∈ (convertMessages messages).take i, m.role ≠ URole.assistant := by
  intro m hm
  have hcm : convertMessages messages
      = fixSystemMessages ((messages.flatMap convertSingleMessage).filter isValidMessage) :=
    rfl
  cases hfind : ((messages.flatMap convertSingleMessage).filter isValidMessage).findIdx?
      (fun m => m.role == URole.user) with
  | none =>
    rw [hcm, fixSystemMessages_of_none _ hfind, hfind] at h
    cases h
  | some j =>
    rw [hcm, fixSystemMessages_of_some _ j hfind, findIdx?_rewriteBefore, hfind] at h
    obtain rfl : j = i := by injection h
    rw [hcm, fixSystemMessages_of_some _ j hfind] at hm
    exact role_mem_take_rewriteBefore j _ m hm

/-- C5 witness: one leading assistant message before a user message. -/
theorem no_assistant_before_first_user_witness :
    ((convertMessages [ChatMessage.mk .assistant [.text "a"], ChatMessage.mk .user [.text "u"]]).findIdx?
        (fun m => m.role == URole.user) = some 1) ∧
      ∀ m ∈ (convertMessages
          [ChatMessage.mk .assistant [.text "a"], ChatMessage.mk .user [.text "u"]]).take 1,
        m.role ≠ URole.assistant :=
  ⟨by decide,
    no_assistant_before_first_user
      [ChatMessage.mk .assistant [.text "a"], ChatMessage.mk .user [.text "u"]] 1 (by decide)⟩

/-- C9: when the filtered conversion output holds no user-role message
at all, the role-repair pass leaves the list untouched — every message,
assistants included, keeps its role and position. -/
theorem role_repair_noop_without_user (messages : List ChatMessage)
    (h : ∀ m ∈ (messages.flatMap convertSingleMessage).filter isValidMessage,
      m.role ≠ URole.user) :
    convertMessages messages
      = (messages.flatMap convertSingleMessage).filter isValidMessage := by
  have hnone : ((messages.flatMap convertSingleMessage).filter isValidMessage).findIdx?
      (fun m => m.role == URole.user) = none := by
    rw [List.findIdx?_eq_none_iff]
    intro x hx
    simpa [urole_beq] using h x hx
  exact fixSystemMessages_of_none _ hnone

/-- C9 witness: an assistant-only history survives unchanged. -/
theorem role_repair_noop_without_user_witness :
    convertMessages [ChatMessage.mk .assistant [.text "x"]]
      = ([ChatMessage.mk .assistant [.text "x"]].flatMap convertSingleMessage).filter
          isValidMessage :=
  role_repair_noop_without_user [ChatMessage.mk .assistant [.text "x"]] (by decide)

/-- C6: the normalized output holds no message whose string content is
empty or whitespace-only and none whose content is an empty block list;
a host message whose parts convert to nothing yields exactly one empty
placeholder, which the filtering pass then drops — net zero output. -/
theorem normalizer_output_no_empty_content (messages : List ChatMessage)
    (m : UpstreamMessage) (hm : m ∈ convertMessages messages) (msg : ChatMessage)
    (h0 : convertParts (roleOf msg.role) msg.content [] = []) :
    (match m.content with
      | UContent.str s => jsTrim s ≠ ""
      | UContent.blocks bs => bs ≠ []) ∧
      convertSingleMessage msg
        = [{ role := roleOf msg.role, content := UContent.str "" }] ∧
      (convertSingleMessage msg).filter isValidMessage = [] := by
  have h1 : convertSingleMessage msg
      = [{ role := roleOf msg.role, content := UContent.str "" }] := by
    simp [convertSingleMessage, h0]
  refine ⟨?_, h1, by rw [h1]; rfl⟩
  have hmem : m.content
      ∈ ((messages.flatMap convertSingleMessage).filter isValidMessage).map
          UpstreamMessage.content := by
    rw [← fixSystemMessages_map_content]
    exact List.mem_map_of_mem _ hm
  obtain ⟨m', hm', hc⟩ := List.mem_map.mp hmem
  have hv : isValidMessage m' = true := List.of_mem_filter hm'
  rw [← hc]
  unfold isValidMessage at hv
  cases hcontent : m'.content with
  | str s =>
    rw [hcontent] at hv
    simp only [decide_eq_true_eq] at hv
    intro he
    rw [he] at hv
    simp at hv
  | blocks bs =>
    rw [hcontent] at hv
    simp only [decide_eq_true_eq] at hv
    intro he
    rw [he] at hv
    simp at hv

/-- C6 witness: a concrete kept message and a concrete all-skipped host
message. -/
theorem normalizer_output_no_empty_content_witness :
    (jsTrim "hi" ≠ "" ∧
      convertSingleMessage (ChatMessage.mk .user [.other])
        = [{ role := roleOf HostRole.user, content := UContent.str "" }] ∧
      (convertSingleMessage (ChatMessage.mk .user [.other])).filter isValidMessage = []) :=
  normalizer_output_no_empty_content [ChatMessage.mk .user [.text "hi"]]
    (UpstreamMessage.mk .user (UContent.str "hi")) (by decide)
    (ChatMessage.mk .user [.other]) (by decide)

/-- C1 counterexample: a tool-call recorded in one host message is not
visible to a tool-result in a later host message — the lookup yields the
literal unknown name although call id c was recorded with name n in the
prior message. -/
theorem toolName_cross_message_is_unknown :
    convertMessages
        [ChatMessage.mk .assistant [.toolCall "c" "n" "i"],
          ChatMessage.mk .user [.toolResult "c" [.textPart "x"]]]
      = [UpstreamMessage.mk .assistant (UContent.blocks [.toolCall "n" "c" "i"]),
          UpstreamMessage.mk .tool (UContent.blocks [.toolResult "c" "unknown" "x"])] ∧
      ("unknown" : String) ≠ "n" :=
  ⟨rfl, by decide⟩

/-- C1 (amended): the callId-to-name record is scoped to a single host
message: a tool-result whose call id was recorded by an earlier
tool-call part of the same host message resolves to the recorded
(non-empty) name, while a call id recorded only in a prior host message
resolves to the literal unknown name. -/
theorem toolName_scoped_per_host_message (c n i v : String) (hn : n ≠ "") :
    convertMessages
        [ChatMessage.mk .assistant [.toolCall c n i, .toolResult c [.textPart v]]]
      = [UpstreamMessage.mk .assistant (UContent.blocks [.toolCall n c i]),
          UpstreamMessage.mk .tool (UContent.blocks [.toolResult c n v])] ∧
      convertMessages
          [ChatMessage.mk .assistant [.toolCall c n i],
            ChatMessage.mk .user [.toolResult c [.textPart v]]]
        = [UpstreamMessage.mk .assistant (UContent.blocks [.toolCall n c i]),
            UpstreamMessage.mk .tool (UContent.blocks [.toolResult c "unknown" v])] := by
  have hlook : lookupToolName [(c, n)] c = n := by
    unfold lookupToolName
    simp [List.lookup, hn]
  constructor
  · have h1 : convertMessages
        [ChatMessage.mk .assistant [.toolCall c n i, .toolResult c [.textPart v]]]
        = [UpstreamMessage.mk .assistant (UContent.blocks [.toolCall n c i]),
            UpstreamMessage.mk .tool
              (UContent.blocks [.toolResult c (lookupToolName [(c, n)] c) v])] := rfl
    rw [h1, hlook]
  · rfl

/-- C1 amended witness: the two scopes at concrete strings. -/
theorem toolName_scoped_per_host_message_witness :
    convertMessages
        [ChatMessage.mk .assistant [.toolCall "c" "n" "i", .toolResult "c" [.textPart "v"]]]
      = [UpstreamMessage.mk .assistant (UContent.blocks [.toolCall "n" "c" "i"]),
          UpstreamMessage.mk .tool (UContent.blocks [.toolResult "c" "n" "v"])] ∧
      convertMessages
          [ChatMessage.mk .assistant [.toolCall "c" "n" "i"],
            ChatMessage.mk .user [.toolResult "c" [.textPart "v"]]]
        = [UpstreamMessage.mk .assistant (UContent.blocks [.toolCall "n" "c" "i"]),
            UpstreamMessage.mk .tool (UContent.blocks [.toolResult "c" "unknown" "v"])] :=
  toolName_scoped_per_host_message "c" "n" "i" "v" (by decide)

/-- C4 counterexample: a tool-result part whose only nested text value
is the empty string still emits a role-tool message (the source tests
the extracted list length, not the joined text) — the joined text here
is empty, so the claimed equivalence with a non-empty joined text
fails. -/
theorem toolResult_all_empty_texts_still_emits :
    convertMessages [ChatMessage.mk .user [.toolResult "c" [.textPart ""]]]
        = [UpstreamMessage.mk .tool (UContent.blocks [.toolResult "c" "unknown" ""])] ∧
      String.intercalate " " (extractToolResultTexts [.textPart ""]) = "" :=
  ⟨rfl, rfl⟩

/-- C4 (amended): a tool-result part emits its role-tool message exactly
when at least one nested part carries a text value; the emitted text
joins the extracted values with a single space and may itself be empty.
The two-value example joins with one space. -/
theorem toolResult_emission_iff_extracted_texts (role : URole) (callId : String)
    (content : List ToolResultContent) (rest : List ContentPart) (tools : ToolRecord) :
    convertParts role (.toolResult callId content :: rest) tools
        = (if extractToolResultTexts content = [] then []
            else
              [UpstreamMessage.mk .tool
                (UContent.blocks [.toolResult callId (lookupToolName tools callId)
                  (String.intercalate " " (extractToolResultTexts content))])])
          ++ convertParts role rest tools ∧
      convertMessages [ChatMessage.mk .user [.toolResult "c" [.textPart "a", .textPart "b"]]]
        = [UpstreamMessage.mk .tool (UContent.blocks [.toolResult "c" "unknown" "a b"])] := by
  constructor
  · cases hE : extractToolResultTexts content with
    | nil => simp [convertParts, hE]
    | cons t ts => simp [convertParts, hE]
  · rfl

end VercelAI
